import Mathlib

/-!
Verification of the arch-clean maintenance orchestrator.

This file gives a shallow embedding of `src/main.rs` and `src/cmd.rs`.
External effects (subprocess outputs, file contents, interactive reads)
are explicit inputs of the embedded functions, and the user-visible
actions of the main loop are recorded as an event trace.
-/

namespace ArchClean

/-- Command-line configuration (struct `Config` in src/main.rs). -/
structure Config where
  apply : Bool
  max_packages : Nat
  max_disk_usage : Nat
deriving Repr, DecidableEq

/-- A probe's check result (struct `Output` in src/cmd.rs). -/
structure Output where
  title : String
  content : String
  fix_available : Bool
deriving Repr, DecidableEq

/-- Captured output of a finished subprocess (`std::process::Output`).
Rust's `.output().await` returns `Ok` whenever the process could be
spawned and awaited, whatever exit `status` it finished with. -/
structure ProcOutput where
  status : Int
  stdout : String
deriving Repr, DecidableEq

/-- Rust `str::lines()`: split on a newline, drop one trailing empty
piece, and strip a trailing carriage return from each line. -/
def rustLines (s : String) : List String :=
  if s = "" then []
  else
    let parts := s.splitOn "\n"
    let parts := if parts.getLast? = some "" then parts.dropLast else parts
    parts.map (fun l => if l.endsWith "\r" then l.dropRight 1 else l)

/-- Rust `str::trim()`: drop whitespace from both ends of a string. -/
def trimR (s : String) : String :=
  ⟨((s.data.dropWhile Char.isWhitespace).reverse.dropWhile Char.isWhitespace).reverse⟩

/-- Rust `str::split_whitespace()`: whitespace-separated tokens, with
empty tokens skipped. -/
def splitWhitespaceR (s : String) : List String :=
  (s.split Char.isWhitespace).filter (fun t => !t.isEmpty)

/-- Rust `str::contains` for a nonempty needle, via `splitOn`. -/
def containsSubstring (s needle : String) : Bool :=
  decide (2 ≤ (s.splitOn needle).length)

/-- Whether an `Except` value is an error. -/
def isFailure {ε α : Type} (r : Except ε α) : Bool :=
  match r with
  | .error _ => true
  | .ok _ => false

/-- One parsed entry of the pacman log (local struct `LogEntry` of
`LastInstalled::check` in src/cmd.rs). -/
structure LogEntry where
  time : String
  action : String
  pkg : String
  version : String
deriving Repr, DecidableEq

/-- The `filter_map` closure of `LastInstalled::check`: column extraction
from one log line (an `io::Result<String>`); `line.ok()?` drops failed
reads, `params.nth(1)` skips the second whitespace column. -/
def parseLogEntry (line : Except String String) : Option LogEntry :=
  match line with
  | .error _ => none
  | .ok l =>
    match splitWhitespaceR l with
    | time :: _ :: action :: pkg :: version :: _ =>
      some { time := time, action := action, pkg := pkg, version := version }
    | _ => none

/-- The `unique.insert` filter of `LastInstalled::check`: keep only the
first entry for each package name. -/
def dedupByPkg : List LogEntry → List String → List LogEntry
  | [], _ => []
  | e :: rest, seen =>
    if e.pkg ∈ seen then dedupByPkg rest seen
    else e :: dedupByPkg rest (e.pkg :: seen)

/-- `LastInstalled::check` (src/cmd.rs): a pure function of the stdout of
`pacman -Qqe`, the lines of /var/log/pacman.log (bottom to top after
`rev()`), and `config.max_packages`. -/
def lastInstalledCheck (qqeStdout : String) (logLines : List (Except String String))
    (maxPackages : Nat) : Output :=
  let installed := rustLines qqeStdout
  let entries := (logLines.reverse.filterMap parseLogEntry).filter
    (fun e => e.action == "installed" && installed.contains e.pkg)
  let shown := (dedupByPkg entries []).take maxPackages
  let content := String.intercalate "\n"
    (shown.map (fun e => e.time ++ " " ++ e.pkg ++ " " ++ e.version))
  { title := "Last " ++ toString maxPackages ++ " explicitly installed packages",
    content := content,
    fix_available := false }

/-- `OrphanPackages::check` (src/cmd.rs): a pure function of the stdout
of `pacman -Qqtd`; also returns the captured `self.pkgs` state. An empty
stdout is replaced by the "(none)" placeholder. -/
def orphanPackagesCheck (stdout : String) : Output × List String :=
  let pkgs := rustLines stdout
  let content := if stdout.isEmpty then "(none)" else stdout
  ({ title := "Orphan packages", content := content, fix_available := !pkgs.isEmpty }, pkgs)

/-- `OrphanPackages::apply_fix` (src/cmd.rs): runs
`yay -Rns --noconfirm <pkgs>` through `.output().await?` — only a
spawn/await error propagates; the exit status of `yay` is never
inspected. -/
def orphanPackagesApplyFix (yayResult : Except String ProcOutput) : Except String Unit :=
  match yayResult with
  | .error e => .error e
  | .ok _ => .ok ()

/-- `Paccache::check` (src/cmd.rs): a pure function of the stdout of
`paccache -d -v --nocolor`; the content is the stdout verbatim. -/
def paccacheCheck (stdout : String) : Output :=
  { title := "Cache cleaning", content := stdout,
    fix_available := (rustLines stdout).length != 1 }

/-- `TrashSize::check` (src/cmd.rs): a pure function of the stdout of
`du -hs` on the trash directory. -/
def trashSizeCheck (stdout : String) : Output :=
  let emptyTrash := (splitWhitespaceR stdout).head? == some "0"
  { title := "Trash size", content := stdout, fix_available := !emptyTrash }

/-- `TrashSize::apply_fix` (src/cmd.rs): runs `trash-empty` through
`.output().await?` — only a spawn/await error propagates; the exit
status is never inspected. -/
def trashSizeApplyFix (trashResult : Except String ProcOutput) : Except String Unit :=
  match trashResult with
  | .error e => .error e
  | .ok _ => .ok ()

/-- `DevUpdates::check` (src/cmd.rs): a pure function of the stdout of
`yay -Sua --confirm --devel` with closed stdin. `fix_available` is
computed from the filtered content before the "(none)" replacement. -/
def devUpdatesCheck (stdout : String) : Output :=
  let found := String.intercalate "\n"
    ((rustLines stdout).filter (fun line => containsSubstring line "devel/"))
  { title := "Developer updates",
    content := if found.isEmpty then "(none)" else found,
    fix_available := decide (0 < (rustLines found).length) }

/-- Rust `str::split_once` at a tab on one `du -s` output line. `none`
(no tab) makes `RustTarget::check` abort with an "unexpected output"
panic. The kilobyte column is parsed with `parse().unwrap_or(0)`. -/
def parseDuLine (line : String) : Option (Int × String) :=
  match line.splitOn "\t" with
  | [] => none
  | [_] => none
  | kb :: rest => some ((kb.toInt?).getD 0, String.intercalate "\t" rest)

/-- The per-project-directory body of the loop in `RustTarget::check`:
parse the `du -s` lines for one project and keep sizes above zero. -/
def rustTargetCheckDir (duStdout : String) : Option (List (Int × String)) :=
  ((rustLines duStdout).mapM parseDuLine).map
    (fun parsed => parsed.filter (fun kv => decide (0 < kv.1)))

/-- One iteration of the accumulation loop of `RustTarget::check`:
`total_kb` grows and `self.dirs` is extended only when the project has
nonempty target output. -/
def rustTargetStep (du : String → String) (acc : Int × List String) (dir : String) :
    Option (Int × List String) :=
  match rustTargetCheckDir (du dir) with
  | none => none
  | some output =>
    if output.isEmpty then some acc
    else some (acc.1 + (output.map (fun kv => kv.1)).sum,
               acc.2 ++ output.map (fun kv => kv.2))

/-- `RustTarget::check` (src/cmd.rs): a pure function of the stdout of the
`find ... Cargo.toml` command and of the `du -s` stdout for each listed
project directory; `none` models the abort on malformed `du` output.
Returns the `Output` and the captured `self.dirs` state. Note that
`fix_available` is the literal `true`. -/
def rustTargetCheck (findStdout : String) (du : String → String) :
    Option (Output × List String) :=
  match List.foldlM (rustTargetStep du) ((0 : Int), ([] : List String)) (rustLines findStdout) with
  | none => none
  | some (totalKb, dirs) =>
    some ({ title := "Size of Rust target directories",
            content := toString (totalKb / 1024) ++ " MB",
            fix_available := true }, dirs)

/-- `RustTarget::apply_fix` (src/cmd.rs): `fs::remove_dir_all` on each
saved directory in order, stopping at the first failure; returns the
directories that were removed. -/
def rustTargetApplyFix (remove : String → Except String Unit) :
    List String → Except String (List String)
  | [] => .ok []
  | d :: rest =>
    match remove d with
    | .error e => .error e
    | .ok _ => (rustTargetApplyFix remove rest).map (fun ds => d :: ds)

deriving instance DecidableEq for Except

/-- One `(probe, outcome)` message on the mpsc channel (src/main.rs). The
probe is identified by its index in the `cmds` array, `outcome` is what
its `check` returned, and `fixResult` is what the probe's `apply_fix`
would return if it were invoked. -/
structure Message where
  probe : Nat
  outcome : Except String Output
  fixResult : Except String Unit
deriving Repr, DecidableEq

/-- The user-visible actions of `main` (src/main.rs), in program order. -/
inductive Event where
  | printResult (probe : Nat) (title : String) (content : String) (fixAvailable : Bool)
  | printCheckError (msg : String)
  | showFix (probe : Nat)
  | promptConfirm (probe : Nat)
  | printSkipped (probe : Nat)
  | applyFix (probe : Nat)
  | printFixError (probe : Nat) (msg : String)
  | printDone (probe : Nat)
  | joinTask (probe : Nat)
deriving Repr, DecidableEq

/-- Exit of `main`: `Ok(())` (process exit code 0) or an escalated error
(nonzero exit code). -/
inductive ExitStatus where
  | success
  | failure (e : String)
deriving Repr, DecidableEq

/-- `io::stdin().read_line`: the next queued read result; at end of input
the read succeeds and leaves the line empty. -/
def readLine : List (Except String String) →
    Except String String × List (Except String String)
  | [] => (.ok "", [])
  | r :: rest => (r, rest)

/-- The events printed after an affirmative confirmation (src/main.rs
lines 98-103): `apply_fix` runs, a failure prints the error through
`unwrap_or_else`, and the `Done` marker is printed unconditionally
afterwards. -/
def fixEvents (m : Message) : List Event :=
  match m.fixResult with
  | .error e => [.applyFix m.probe, .printFixError m.probe e, .printDone m.probe]
  | .ok _ => [.applyFix m.probe, .printDone m.probe]

/-- The body of the `while let Some((cmd, out)) = rd.recv().await` loop of
`main` for one message: the events it prints, the remaining stdin queue,
and `some e` when the confirmation read fails (the `?` on `read_line`
returns the error from `main`). Stdout flushing is assumed to succeed. -/
def processEntry (conf : Config) (stdin : List (Except String String)) (m : Message) :
    List Event × List (Except String String) × Option String :=
  match m.outcome with
  | .error e => ([.printCheckError e], stdin, none)
  | .ok out =>
    let head := Event.printResult m.probe out.title (trimR out.content) out.fix_available
    if !conf.apply || !out.fix_available then
      ([head], stdin, none)
    else
      match readLine stdin with
      | (.error e, _) => ([head, .showFix m.probe, .promptConfirm m.probe], stdin, some e)
      | (.ok line, rest) =>
        if trimR line ≠ "y" then
          ([head, .showFix m.probe, .promptConfirm m.probe, .printSkipped m.probe], rest, none)
        else
          (head :: .showFix m.probe :: .promptConfirm m.probe :: fixEvents m, rest, none)

/-- The full receive loop of `main` (src/main.rs lines 68-109) over the
messages in channel-arrival order. -/
def collectLoop (conf : Config) :
    List (Except String String) → List Message → List Event × ExitStatus
  | _, [] => ([], .success)
  | stdin, m :: rest =>
    match processEntry conf stdin m with
    | (evs, _, some e) => (evs, .failure e)
    | (evs, stdin', none) =>
      (evs ++ (collectLoop conf stdin' rest).1, (collectLoop conf stdin' rest).2)

/-- `main` (src/main.rs): the receive loop, then a join of every task
handle; a confirmation read error returns from `main` before the joins. -/
def runMain (conf : Config) (stdin : List (Except String String)) (msgs : List Message) :
    List Event × ExitStatus :=
  match collectLoop conf stdin msgs with
  | (tr, .success) => (tr ++ msgs.map (fun m => Event.joinTask m.probe), .success)
  | (tr, .failure e) => (tr, .failure e)

/-- The Scheduler (src/main.rs lines 55-65): one spawned task per probe,
and each task sends exactly one `(probe, outcome)` message. -/
def scheduler (probes : List Nat) (outcome : Nat → Except String Output)
    (fixResult : Nat → Except String Unit) : List Message :=
  probes.map (fun p => { probe := p, outcome := outcome p, fixResult := fixResult p })

/-- The fixed probe array of `main` (src/main.rs lines 40-49). -/
def cmds : List String :=
  ["LastInstalled", "OrphanPackages", "Paccache", "TrashSize",
   "DiskUsage", "DevUpdates", "NeovimSwapFiles", "RustTarget"]

/-- Fix-phase events: describe, confirm, skip, apply, fix error, done. -/
def Event.isFixPhase : Event → Bool
  | .showFix _ => true
  | .promptConfirm _ => true
  | .printSkipped _ => true
  | .applyFix _ => true
  | .printFixError _ _ => true
  | .printDone _ => true
  | _ => false

/-- Collection events: a probe's result block or its check-error line. -/
def Event.isCollection : Event → Bool
  | .printResult _ _ _ _ => true
  | .printCheckError _ => true
  | _ => false

/-- True when some fix-phase event is followed, later in the trace, by a
collection event, i.e. fixing is interleaved with collecting. -/
def fixBeforeCollection : List Event → Bool
  | [] => false
  | e :: rest => (e.isFixPhase && rest.any Event.isCollection) || fixBeforeCollection rest

/-- Number of `applyFix p` events in a trace. -/
def countApplyFix (p : Nat) (tr : List Event) : Nat :=
  tr.countP (fun e => match e with | .applyFix q => q == p | _ => false)

/-- Number of collection events in a trace. -/
def countCollection (tr : List Event) : Nat :=
  tr.countP (fun e => e.isCollection)

/-- Number of check-error lines in a trace. -/
def countCheckErrors (tr : List Event) : Nat :=
  tr.countP (fun e => match e with | .printCheckError _ => true | _ => false)

/-- A message on which the fix branch can run: the apply flag is set and
the check succeeded reporting an available fix. -/
def eligibleMsg (conf : Config) (m : Message) : Bool :=
  conf.apply && (match m.outcome with | .ok o => o.fix_available | .error _ => false)

/-- Scans a trace checking that every fix-phase event for a probe `q`
happens while `q`'s own result is the most recently collected outcome;
`last` is the probe of the most recent successfully collected result. -/
def fixAfterOwnResult : Option Nat → List Event → Bool
  | _, [] => true
  | _, .printResult q _ _ _ :: rest => fixAfterOwnResult (some q) rest
  | _, .printCheckError _ :: rest => fixAfterOwnResult none rest
  | last, .showFix q :: rest => (last == some q) && fixAfterOwnResult last rest
  | last, .promptConfirm q :: rest => (last == some q) && fixAfterOwnResult last rest
  | last, .printSkipped q :: rest => (last == some q) && fixAfterOwnResult last rest
  | last, .applyFix q :: rest => (last == some q) && fixAfterOwnResult last rest
  | last, .printFixError q _ :: rest => (last == some q) && fixAfterOwnResult last rest
  | last, .printDone q :: rest => (last == some q) && fixAfterOwnResult last rest
  | last, .joinTask _ :: rest => fixAfterOwnResult last rest

/-- The probe of the most recent collected result after a trace segment
(the state transformer matching `fixAfterOwnResult`). -/
def lastResultProbe : Option Nat → List Event → Option Nat
  | last, [] => last
  | _, .printResult q _ _ _ :: rest => lastResultProbe (some q) rest
  | _, .printCheckError _ :: rest => lastResultProbe none rest
  | last, _ :: rest => lastResultProbe last rest

/-- The configuration used in the concrete runs below: `--apply` set and
default caps. -/
def conf₀ : Config := { apply := true, max_packages := 10, max_disk_usage := 10 }

/-- A probe (index 0) whose check succeeded with a fix available and
whose fix succeeds. -/
def msgFixOk : Message :=
  { probe := 0,
    outcome := .ok { title := "t0", content := "c0", fix_available := true },
    fixResult := .ok () }

/-- A probe (index 1) whose check succeeded with a fix available. -/
def msgFixOk1 : Message :=
  { probe := 1,
    outcome := .ok { title := "t1", content := "c1", fix_available := true },
    fixResult := .ok () }

/-- A probe (index 1) whose check succeeded with no fix available. -/
def msgPlain1 : Message :=
  { probe := 1,
    outcome := .ok { title := "t1", content := "c1", fix_available := false },
    fixResult := .ok () }

/-- A probe (index 0) whose check succeeded with a fix available but
whose fix fails with the error "boom". -/
def msgFixFails : Message :=
  { probe := 0,
    outcome := .ok { title := "t0", content := "c0", fix_available := true },
    fixResult := .error "boom" }

/-- Two probes (indices 0 and 1) whose checks both failed. -/
def msgsErr : List Message :=
  [{ probe := 0, outcome := .error "a", fixResult := .ok () },
   { probe := 1, outcome := .error "b", fixResult := .ok () }]

/-! ## Helper lemmas -/

theorem fixAfterOwnResult_append (l1 l2 : List Event) : ∀ last,
    fixAfterOwnResult last (l1 ++ l2)
      = (fixAfterOwnResult last l1 && fixAfterOwnResult (lastResultProbe last l1) l2) := by
  induction l1 with
  | nil => intro last; simp [fixAfterOwnResult, lastResultProbe]
  | cons e rest ih =>
    intro last
    cases e <;> simp [fixAfterOwnResult, lastResultProbe, ih, Bool.and_assoc]

theorem processEntry_fixAfterOwnResult (conf : Config) (stdin : List (Except String String))
    (m : Message) (last : Option Nat) :
    fixAfterOwnResult last (processEntry conf stdin m).1 = true := by
  unfold processEntry
  cases hout : m.outcome with
  | error e => simp [fixAfterOwnResult]
  | ok out =>
    by_cases hc : (!conf.apply || !out.fix_available) = true
    · simp [hc, fixAfterOwnResult]
    · simp only [hc, if_false]
      cases stdin with
      | nil =>
        rw [show readLine [] = (.ok "", []) from rfl]
        simp only [readLine]
        rw [if_pos (show trimR "" ≠ "y" by decide)]
        simp [fixAfterOwnResult]
      | cons r rest =>
        cases r with
        | error e => simp [readLine, fixAfterOwnResult]
        | ok line =>
          simp only [readLine]
          by_cases hl : trimR line ≠ "y"
          · rw [if_pos hl]
            simp [fixAfterOwnResult]
          · rw [if_neg hl]
            cases hfr : m.fixResult <;> simp [fixEvents, hfr, fixAfterOwnResult]

theorem collectLoop_fixAfterOwnResult (conf : Config) :
    ∀ (msgs : List Message) (stdin : List (Except String String)) (last : Option Nat),
    fixAfterOwnResult last (collectLoop conf stdin msgs).1 = true := by
  intro msgs
  induction msgs with
  | nil => intro stdin last; simp [collectLoop, fixAfterOwnResult]
  | cons m rest ih =>
    intro stdin last
    have hpe := processEntry_fixAfterOwnResult conf stdin m last
    unfold collectLoop
    rcases h : processEntry conf stdin m with ⟨evs, stdin', err⟩
    rw [h] at hpe
    cases err with
    | some e => simpa using hpe
    | none => simp [fixAfterOwnResult_append, hpe, ih]

theorem fixAfterOwnResult_joins (ms : List Message) : ∀ last,
    fixAfterOwnResult last (ms.map (fun m => Event.joinTask m.probe)) = true := by
  induction ms with
  | nil => intro last; simp [fixAfterOwnResult]
  | cons m rest ih => intro last; simp [fixAfterOwnResult, ih]

/-! ## Claim C1 -/

/-- C1 counterexample: with the `--apply` flag set, two probes and an
affirmative reply, `show_fix`, the confirmation prompt and `apply_fix`
for the first collected probe all happen before the second probe's
outcome is received — the fix phase does not wait for the collector to
drain the channel. -/
theorem fix_interleaved_with_collection_cex :
    fixBeforeCollection (runMain conf₀ [Except.ok "y"] [msgFixOk, msgPlain1]).1 = true := by
  rfl

/-- C1 (amended): fix-phase actions are not deferred until the channel
is drained; they run inside the collection loop. What does hold is that
every fix-phase action for a probe (describe, prompt, skip, apply, fix
error, completion marker) occurs while that probe's own just-received
result is the most recently collected outcome, and the task joins happen
only after the loop. -/
theorem fix_actions_follow_own_result (conf : Config) (stdin : List (Except String String))
    (msgs : List Message) :
    fixAfterOwnResult none (runMain conf stdin msgs).1 = true := by
  unfold runMain
  have hcl := collectLoop_fixAfterOwnResult conf msgs stdin none
  rcases h : collectLoop conf stdin msgs with ⟨tr, st⟩
  rw [h] at hcl
  cases st with
  | success => simp [fixAfterOwnResult_append, hcl, fixAfterOwnResult_joins]
  | failure e => simpa using hcl

/-! ## Claim C2 -/

/-- C2 counterexample: probe 0's fix is confirmed and `apply_fix` fails
with "boom", yet the `Done` completion marker is printed anyway right
after the error line — the marker is not printed iff `apply_fix`
succeeded. -/
theorem done_marker_after_failed_fix_cex :
    Event.printFixError 0 "boom" ∈ (runMain conf₀ [Except.ok "y"] [msgFixFails]).1
    ∧ Event.printDone 0 ∈ (runMain conf₀ [Except.ok "y"] [msgFixFails]).1 := by
  exact ⟨by decide, by decide⟩

/-- C2 (amended): for an entry whose fix is confirmed affirmatively, a
failing `apply_fix` prints the error line and then the completion marker
is printed as well (the marker follows every `apply_fix` attempt), and
iteration continues with the remaining entries — a failed fix never
aborts the remaining fixes. -/
theorem failed_fix_prints_error_and_done_and_continues (conf : Config)
    (stdin' : List (Except String String)) (ms : List Message)
    (p : Nat) (t c e line : String)
    (h1 : conf.apply = true) (h2 : trimR line = "y") :
    collectLoop conf (.ok line :: stdin')
      ({ probe := p, outcome := .ok { title := t, content := c, fix_available := true },
         fixResult := .error e } :: ms)
    = (Event.printResult p t (trimR c) true :: .showFix p :: .promptConfirm p ::
        .applyFix p :: .printFixError p e :: .printDone p :: (collectLoop conf stdin' ms).1,
       (collectLoop conf stdin' ms).2) := by
  generalize hX : collectLoop conf stdin' ms = X
  unfold collectLoop processEntry readLine fixEvents
  simp [h1, h2, hX]

/-- Witness for the amended C2 theorem at a concrete input. -/
theorem failed_fix_continues_witness :
    collectLoop conf₀ [Except.ok "y"] [msgFixFails]
    = ([Event.printResult 0 "t0" "c0" true, .showFix 0, .promptConfirm 0, .applyFix 0,
        .printFixError 0 "boom", .printDone 0], .success) :=
  failed_fix_prints_error_and_done_and_continues conf₀ [] [] 0 "t0" "c0" "boom" "y" rfl
    (by decide)

/-! ## Claim C3 -/

/-- C3 counterexample: with two probes and a failing confirmation read,
the second probe's successfully produced outcome is never printed — the
claim that every probe's outcome is still reported after a
`ConfirmationReadError` is false. -/
theorem confirm_error_drops_pending_outcomes_cex :
    runMain conf₀ [Except.error "closed"] [msgFixOk, msgPlain1]
      = ([Event.printResult 0 "t0" "c0" true, .showFix 0, .promptConfirm 0],
         .failure "closed")
    ∧ Event.printResult 1 "t1" "c1" false
        ∉ (runMain conf₀ [Except.error "closed"] [msgFixOk, msgPlain1]).1 := by
  exact ⟨rfl, by decide⟩

/-- C3 (amended): a confirmation read failure aborts the whole remaining
run, not only the fix phase: fixes already applied are not rolled back
and already-received outcomes stay reported, but messages not yet
received are never collected — their probes' outcomes go unreported —
and `main` returns the error without joining the tasks. -/
theorem confirm_error_aborts_whole_run (e : String) (ms2 : List Message) :
    runMain conf₀ [Except.ok "y", Except.error e] (msgFixOk :: msgFixOk1 :: ms2)
    = ([Event.printResult 0 "t0" "c0" true, .showFix 0, .promptConfirm 0, .applyFix 0,
        .printDone 0, Event.printResult 1 "t1" "c1" true, .showFix 1, .promptConfirm 1],
       .failure e) := rfl

/-! ## Claim C5 -/

/-- C5 counterexample: the reply " y" is not the string "y", so the
claim requires it to be treated as a decline (skip marker printed, no
`apply_fix`); the code trims it and applies the fix instead. -/
theorem untrimmed_affirmative_reply_cex :
    (" y" : String) ≠ "y"
    ∧ Event.applyFix 0 ∈ (runMain conf₀ [Except.ok " y"] [msgFixOk]).1
    ∧ Event.printSkipped 0 ∉ (runMain conf₀ [Except.ok " y"] [msgFixOk]).1 := by
  exact ⟨by decide, by decide, by decide⟩

/-- C5 (amended): the confirmation line is whitespace-trimmed before the
comparison. Any reply whose trimmed content differs from "y"
(case-sensitively) is a decline: the skip marker is printed, `apply_fix`
is not called, and processing continues with the next entry; the fix
branch runs exactly when the trimmed reply equals "y". -/
theorem confirmation_compares_trimmed_reply (conf : Config)
    (stdin' : List (Except String String)) (ms : List Message)
    (p : Nat) (t c line : String) (fr : Except String Unit)
    (h1 : conf.apply = true) :
    (trimR line ≠ "y" →
      collectLoop conf (.ok line :: stdin')
        ({ probe := p, outcome := .ok { title := t, content := c, fix_available := true },
           fixResult := fr } :: ms)
      = (Event.printResult p t (trimR c) true :: .showFix p :: .promptConfirm p ::
          .printSkipped p :: (collectLoop conf stdin' ms).1,
         (collectLoop conf stdin' ms).2))
    ∧ (trimR line = "y" →
      collectLoop conf (.ok line :: stdin')
        ({ probe := p, outcome := .ok { title := t, content := c, fix_available := true },
           fixResult := fr } :: ms)
      = (Event.printResult p t (trimR c) true :: .showFix p :: .promptConfirm p ::
          (fixEvents { probe := p,
                       outcome := .ok { title := t, content := c, fix_available := true },
                       fixResult := fr }
            ++ (collectLoop conf stdin' ms).1),
         (collectLoop conf stdin' ms).2)) := by
  constructor
  · intro h2
    generalize hX : collectLoop conf stdin' ms = X
    unfold collectLoop processEntry readLine
    simp [h1, h2, hX]
  · intro h2
    generalize hX : collectLoop conf stdin' ms = X
    unfold collectLoop processEntry readLine
    simp [h1, h2, hX]

/-- Witness for the amended C5 theorem at a concrete input. -/
theorem confirmation_trimmed_witness :
    collectLoop conf₀ [Except.ok "n"] [msgFixOk]
    = ([Event.printResult 0 "t0" "c0" true, .showFix 0, .promptConfirm 0, .printSkipped 0],
       .success) :=
  (confirmation_compares_trimmed_reply conf₀ [] [] 0 "t0" "c0" "n" (Except.ok ()) rfl).1
    (by decide)

theorem countP_joinTask_eq_zero (pred : Event → Bool)
    (h : ∀ q, pred (Event.joinTask q) = false) (ms : List Message) :
    (ms.map (fun m => Event.joinTask m.probe)).countP pred = 0 := by
  induction ms with
  | nil => simp
  | cons m rest ih => simp [List.countP_cons, h, ih]

theorem processEntry_countApplyFix (conf : Config) (stdin : List (Except String String))
    (m : Message) (p : Nat) :
    countApplyFix p (processEntry conf stdin m).1
      ≤ if (m.probe == p && eligibleMsg conf m) = true then 1 else 0 := by
  unfold processEntry
  cases hout : m.outcome with
  | error e => simp [countApplyFix, List.countP_cons]
  | ok out =>
    by_cases hc : (!conf.apply || !out.fix_available) = true
    · simp [hc, countApplyFix, List.countP_cons]
    · simp only [hc, if_false]
      have h1 : conf.apply = true ∧ out.fix_available = true := by simpa using hc
      have helig : eligibleMsg conf m = true := by
        simp [eligibleMsg, hout, h1.1, h1.2]
      cases stdin with
      | nil =>
        simp only [readLine]
        rw [if_pos (show trimR "" ≠ "y" by decide)]
        simp [countApplyFix, List.countP_cons]
      | cons r rest =>
        cases r with
        | error e => simp [readLine, countApplyFix, List.countP_cons]
        | ok line =>
          simp only [readLine]
          by_cases hl : trimR line ≠ "y"
          · rw [if_pos hl]
            simp [countApplyFix, List.countP_cons]
          · rw [if_neg hl]
            cases hfr : m.fixResult <;>
              by_cases hp : m.probe = p <;>
                simp [fixEvents, hfr, helig, hp, countApplyFix, List.countP_cons]

theorem collectLoop_countApplyFix (conf : Config) (p : Nat) :
    ∀ (msgs : List Message) (stdin : List (Except String String)),
    countApplyFix p (collectLoop conf stdin msgs).1
      ≤ msgs.countP (fun m => m.probe == p && eligibleMsg conf m) := by
  intro msgs
  induction msgs with
  | nil => intro stdin; simp [collectLoop, countApplyFix]
  | cons m rest ih =>
    intro stdin
    have hpe := processEntry_countApplyFix conf stdin m p
    unfold collectLoop
    rcases h : processEntry conf stdin m with ⟨evs, stdin', err⟩
    rw [h] at hpe
    cases err with
    | some e =>
      simp only [countApplyFix, List.countP_cons] at hpe ⊢
      by_cases hm : (m.probe == p && eligibleMsg conf m) = true
      · rw [if_pos hm] at hpe ⊢
        omega
      · rw [if_neg hm] at hpe ⊢
        omega
    | none =>
      have hih := ih stdin'
      simp only [countApplyFix, List.countP_append, List.countP_cons] at hpe hih ⊢
      by_cases hm : (m.probe == p && eligibleMsg conf m) = true
      · rw [if_pos hm] at hpe ⊢
        omega
      · rw [if_neg hm] at hpe ⊢
        omega

theorem runMain_countApplyFix (conf : Config) (p : Nat)
    (stdin : List (Except String String)) (msgs : List Message) :
    countApplyFix p (runMain conf stdin msgs).1
      ≤ msgs.countP (fun m => m.probe == p && eligibleMsg conf m) := by
  unfold runMain
  have h := collectLoop_countApplyFix conf p msgs stdin
  rcases hcl : collectLoop conf stdin msgs with ⟨tr, st⟩
  rw [hcl] at h
  cases st with
  | success =>
    have hj := countP_joinTask_eq_zero
      (fun e => match e with | .applyFix q => q == p | _ => false) (fun q => rfl) msgs
    simp only [countApplyFix, List.countP_append] at h hj ⊢
    omega
  | failure e => simpa using h

theorem collectLoop_all_reads_ok (conf : Config) :
    ∀ (msgs : List Message) (stdin : List (Except String String)),
    (∀ r ∈ stdin, isFailure r = false) →
    (collectLoop conf stdin msgs).2 = .success
    ∧ countCollection (collectLoop conf stdin msgs).1 = msgs.length
    ∧ countCheckErrors (collectLoop conf stdin msgs).1
        = msgs.countP (fun m => isFailure m.outcome) := by
  intro msgs
  induction msgs with
  | nil =>
    intro stdin h
    simp [collectLoop, countCollection, countCheckErrors]
  | cons m rest ih =>
    intro stdin hok
    unfold collectLoop processEntry
    cases hout : m.outcome with
    | error e =>
      obtain ⟨ha, hb, hc'⟩ := ih stdin hok
      have hmf : isFailure m.outcome = true := by simp [isFailure, hout]
      simp only [countCollection, countCheckErrors, Event.isCollection] at hb hc' ⊢
      simp [List.countP_cons, List.countP_append, ha, hb, hc', hmf]
    | ok out =>
      have hmf : isFailure m.outcome = false := by simp [isFailure, hout]
      by_cases hc : (!conf.apply || !out.fix_available) = true
      · obtain ⟨ha, hb, hc'⟩ := ih stdin hok
        simp only [countCollection, countCheckErrors, Event.isCollection] at hb hc' ⊢
        simp [hc, List.countP_cons, List.countP_append, ha, hb, hc', hmf]
      · simp only [hc, if_false]
        cases stdin with
        | nil =>
          simp only [readLine]
          rw [if_pos (show trimR "" ≠ "y" by decide)]
          obtain ⟨ha, hb, hc'⟩ := ih [] (by simp)
          simp only [countCollection, countCheckErrors, Event.isCollection] at hb hc' ⊢
          simp [List.countP_cons, List.countP_append, ha, hb, hc', hmf]
        | cons r rest' =>
          cases r with
          | error e =>
            have := hok _ (List.mem_cons_self _ _)
            simp [isFailure] at this
          | ok line =>
            have hok' : ∀ r ∈ rest', isFailure r = false :=
              fun r hr => hok r (List.mem_cons_of_mem _ hr)
            obtain ⟨ha, hb, hc'⟩ := ih rest' hok'
            simp only [readLine]
            by_cases hl : trimR line ≠ "y"
            · rw [if_pos hl]
              simp only [countCollection, countCheckErrors, Event.isCollection] at hb hc' ⊢
              simp [List.countP_cons, List.countP_append, ha, hb, hc', hmf]
            · rw [if_neg hl]
              cases hfr : m.fixResult <;>
                · simp only [countCollection, countCheckErrors, Event.isCollection] at hb hc' ⊢
                  simp [fixEvents, hfr, List.countP_cons, List.countP_append, ha, hb, hc', hmf]

/-! ## Claim C4 -/

/-- C4: `apply_fix` is invoked at most once per probe (message lists with
distinct probe identities), and only for a probe whose own check
succeeded with `fix_available = true` while the global apply flag is
set: with `apply = false` there are zero `apply_fix` invocations however
many probes report a fix, a probe whose check failed never has
`apply_fix` invoked, and neither does a probe whose check succeeded
reporting `fix_available = false`, even with the apply flag set. -/
theorem apply_fix_at_most_once_and_guarded (conf : Config)
    (stdin : List (Except String String)) (msgs : List Message) (p : Nat) :
    ((msgs.map Message.probe).Nodup → countApplyFix p (runMain conf stdin msgs).1 ≤ 1)
    ∧ (conf.apply = false → countApplyFix p (runMain conf stdin msgs).1 = 0)
    ∧ ((∀ m ∈ msgs, m.probe = p → isFailure m.outcome = true) →
        countApplyFix p (runMain conf stdin msgs).1 = 0)
    ∧ ((∀ m ∈ msgs, m.probe = p → ∀ o, m.outcome = Except.ok o → o.fix_available = false) →
        countApplyFix p (runMain conf stdin msgs).1 = 0) := by
  have hle := runMain_countApplyFix conf p stdin msgs
  refine ⟨fun hnd => ?_, fun hap => ?_, fun herr => ?_, fun hnofix => ?_⟩
  · have h1 : msgs.countP (fun m => m.probe == p && eligibleMsg conf m)
        ≤ msgs.countP (fun m => m.probe == p) := by
      apply List.countP_mono_left
      intro m hm h
      exact (Bool.and_eq_true _ _ |>.mp h).1
    have h2 : msgs.countP (fun m => m.probe == p) = (msgs.map Message.probe).count p := by
      simp only [List.count, List.countP_map]
      rfl
    have h3 := List.nodup_iff_count_le_one.mp hnd p
    omega
  · have h0 : msgs.countP (fun m => m.probe == p && eligibleMsg conf m) = 0 := by
      apply List.countP_eq_zero.mpr
      intro m hm
      simp [eligibleMsg, hap]
    omega
  · have h0 : msgs.countP (fun m => m.probe == p && eligibleMsg conf m) = 0 := by
      apply List.countP_eq_zero.mpr
      intro m hm
      by_cases hp : m.probe = p
      · have hf := herr m hm hp
        cases hout : m.outcome with
        | ok o => rw [hout] at hf; simp [isFailure] at hf
        | error e => simp [eligibleMsg, hout]
      · simp [hp]
    omega
  · have h0 : msgs.countP (fun m => m.probe == p && eligibleMsg conf m) = 0 := by
      apply List.countP_eq_zero.mpr
      intro m hm
      by_cases hp : m.probe = p
      · cases hout : m.outcome with
        | ok o =>
          have hf := hnofix m hm hp o hout
          simp [eligibleMsg, hout, hf]
        | error e => simp [eligibleMsg, hout]
      · simp [hp]
    omega

/-- Witness for the C4 theorem at a concrete input. -/
theorem apply_fix_guarded_witness :
    countApplyFix 0 (runMain conf₀ [Except.ok "y"] [msgFixOk]).1 ≤ 1 :=
  (apply_fix_at_most_once_and_guarded conf₀ [Except.ok "y"] [msgFixOk] 0).1 (by decide)

/-! ## Claim C8 -/

/-- C8: the Scheduler sends exactly one `(probe, outcome)` message per
probe — N messages for N probes, for any N ≥ 0, with the compiled-in
probe array having N = 8 — and for any arrival order of those messages
(any permutation) the Collector processes all of them: exactly N
result-or-error blocks are printed and the receive loop terminates when
the message list (the closed channel) is exhausted. -/
theorem channel_collects_exactly_n_messages (probes : List Nat)
    (outcome : Nat → Except String Output) (fixResult : Nat → Except String Unit)
    (conf : Config) (stdin : List (Except String String)) (msgs : List Message)
    (hperm : msgs.Perm (scheduler probes outcome fixResult))
    (hok : ∀ r ∈ stdin, isFailure r = false) :
    (scheduler probes outcome fixResult).length = probes.length
    ∧ countCollection (runMain conf stdin msgs).1 = probes.length
    ∧ cmds.length = 8 := by
  have hall := collectLoop_all_reads_ok conf msgs stdin hok
  refine ⟨by simp [scheduler], ?_, rfl⟩
  have hlen : msgs.length = probes.length := by
    rw [hperm.length_eq]; simp [scheduler]
  unfold runMain
  rcases hcl : collectLoop conf stdin msgs with ⟨tr, st⟩
  rw [hcl] at hall
  obtain ⟨h1, h2, _⟩ := hall
  simp only at h1 h2
  subst h1
  have hj := countP_joinTask_eq_zero (fun e => e.isCollection) (fun q => rfl) msgs
  simp only [countCollection, List.countP_append] at h2 hj ⊢
  omega

/-- Witness for the C8 theorem at a concrete input. -/
theorem channel_collects_witness :
    (scheduler [0, 1] (fun _ => Except.error "e") (fun _ => Except.ok ())).length = 2
    ∧ countCollection (runMain conf₀ []
        (scheduler [0, 1] (fun _ => Except.error "e") (fun _ => Except.ok ()))).1 = 2
    ∧ cmds.length = 8 :=
  channel_collects_exactly_n_messages [0, 1] (fun _ => Except.error "e")
    (fun _ => Except.ok ()) conf₀ [] _ (List.Perm.refl _) (by simp)

/-! ## Claim C9 -/

/-- C9: once past config parsing, and with every confirmation read that
happens succeeding, `main` returns `Ok(())` — exit code 0 — no matter
how many individual probe checks failed, and each failed check is
reported by exactly one error line without changing the exit status. -/
theorem exit_success_despite_check_failures (conf : Config)
    (stdin : List (Except String String)) (msgs : List Message)
    (hok : ∀ r ∈ stdin, isFailure r = false) :
    (runMain conf stdin msgs).2 = .success
    ∧ countCheckErrors (runMain conf stdin msgs).1
        = msgs.countP (fun m => isFailure m.outcome) := by
  have hall := collectLoop_all_reads_ok conf msgs stdin hok
  unfold runMain
  rcases hcl : collectLoop conf stdin msgs with ⟨tr, st⟩
  rw [hcl] at hall
  obtain ⟨h1, _, h3⟩ := hall
  simp only at h1 h3
  subst h1
  have hj := countP_joinTask_eq_zero
    (fun e => match e with | .printCheckError _ => true | _ => false) (fun q => rfl) msgs
  refine ⟨rfl, ?_⟩
  simp only [countCheckErrors, List.countP_append] at h3 hj ⊢
  omega

/-- Witness for the C9 theorem at a concrete input: two failed checks,
two error lines, exit code 0. -/
theorem exit_success_witness :
    (runMain conf₀ [] msgsErr).2 = ExitStatus.success
    ∧ countCheckErrors (runMain conf₀ [] msgsErr).1 = 2 := by
  have h := exit_success_despite_check_failures conf₀ [] msgsErr (by simp)
  exact ⟨h.1, h.2.trans (by decide)⟩

/-! ## Claim C6 -/

/-- C6 counterexample: a `LastInstalled` check over an empty result set
(no matching log entries) returns an empty content string, and so does
`Paccache` with empty subprocess output — neither substitutes a
non-empty placeholder, so the claim does not hold for every probe. -/
theorem empty_content_not_placeholder_cex :
    (lastInstalledCheck "" [] 10).content = ""
    ∧ (paccacheCheck "").content = "" := ⟨rfl, rfl⟩

theorem placeholder_ne_empty (s : String) : (if s.isEmpty then "(none)" else s) ≠ "" := by
  by_cases h : s.isEmpty
  · rw [if_pos h]
    decide
  · rw [if_neg h]
    intro heq
    apply h
    rw [heq]
    rfl

/-- C6 (amended): only the `OrphanPackages` and `DevUpdates` probes
substitute the explicit "(none)" placeholder for an empty result set —
their content is never the empty string — while probes such as
`LastInstalled` and `Paccache` return the (possibly empty) text as-is. -/
theorem placeholder_only_some_probes :
    (∀ s : String, (orphanPackagesCheck s).1.content ≠ "")
    ∧ (∀ s : String, (devUpdatesCheck s).content ≠ "")
    ∧ (orphanPackagesCheck "").1.content = "(none)"
    ∧ (devUpdatesCheck "").content = "(none)" :=
  ⟨fun s => placeholder_ne_empty s, fun _ => placeholder_ne_empty _, rfl, rfl⟩

/-! ## Claim C7 -/

/-- C7 counterexample: the remediation command ran and exited with the
unsuccessful status 1, yet both `OrphanPackages::apply_fix` and
`TrashSize::apply_fix` return success — a remediation that failed
partway does not produce an error. -/
theorem nonzero_exit_still_ok_cex :
    orphanPackagesApplyFix (Except.ok { status := 1, stdout := "" }) = Except.ok ()
    ∧ trashSizeApplyFix (Except.ok { status := 1, stdout := "" }) = Except.ok ()
    ∧ (1 : Int) ≠ 0 := ⟨rfl, rfl, by decide⟩

/-- C7 (amended): `apply_fix` returns an error exactly when the
remediation process could not be spawned or awaited (an OS error); the
remediation command's own exit status is ignored, so a command that runs
and exits unsuccessfully still yields success. -/
theorem apply_fix_propagates_only_spawn_errors :
    (∀ out : ProcOutput, orphanPackagesApplyFix (Except.ok out) = Except.ok ())
    ∧ (∀ e : String, orphanPackagesApplyFix (Except.error e) = Except.error e)
    ∧ (∀ out : ProcOutput, trashSizeApplyFix (Except.ok out) = Except.ok ())
    ∧ (∀ e : String, trashSizeApplyFix (Except.error e) = Except.error e) :=
  ⟨fun _ => rfl, fun _ => rfl, fun _ => rfl, fun _ => rfl⟩

/-! ## Claim C10 -/

theorem rustTargetFold_empty (du : String → String) :
    ∀ (ds : List String) (acc : Int × List String), (∀ d ∈ ds, du d = "") →
    List.foldlM (rustTargetStep du) acc ds = some acc := by
  intro ds
  induction ds with
  | nil => intro acc h; rfl
  | cons d rest ih =>
    intro acc h
    have hd : du d = "" := h d (List.mem_cons_self _ _)
    have hstep : rustTargetStep du acc d = some acc := by
      unfold rustTargetStep
      rw [hd]
      rfl
    rw [List.foldlM_cons, hstep]
    simpa using ih acc (fun d hdm => h d (List.mem_cons_of_mem _ hdm))

/-- C10: `RustTarget::check` always reports `fix_available = true`, even
when no Rust target directories are found — in that case the saved
`dirs` state is empty and the reported size is "0 MB" — and
consequently, with the apply flag set and an affirmative confirmation,
its `apply_fix` is invoked and removes nothing. -/
theorem rust_target_always_reports_fix (findStdout : String) (du : String → String)
    (out : Output) (dirs : List String)
    (h : rustTargetCheck findStdout du = some (out, dirs)) :
    out.fix_available = true
    ∧ ((∀ d ∈ rustLines findStdout, du d = "") →
        dirs = [] ∧ out.content = "0 MB"
        ∧ (∀ remove : String → Except String Unit,
            rustTargetApplyFix remove dirs = Except.ok [])
        ∧ Event.applyFix 0
            ∈ (runMain conf₀ [Except.ok "y"]
                [{ probe := 0, outcome := Except.ok out, fixResult := Except.ok () }]).1) := by
  have hfa : out.fix_available = true := by
    unfold rustTargetCheck at h
    cases hfold : List.foldlM (rustTargetStep du) ((0 : Int), ([] : List String))
        (rustLines findStdout) with
    | none => rw [hfold] at h; simp at h
    | some acc =>
      rw [hfold] at h
      obtain ⟨tk, td⟩ := acc
      simp only [Option.some.injEq, Prod.mk.injEq] at h
      rw [← h.1]
  refine ⟨hfa, fun hdu => ?_⟩
  have hempty := rustTargetFold_empty du (rustLines findStdout)
    ((0 : Int), ([] : List String)) hdu
  have hck : rustTargetCheck findStdout du
      = some ({ title := "Size of Rust target directories", content := "0 MB",
                fix_available := true }, []) := by
    unfold rustTargetCheck
    rw [hempty]
    decide
  rw [h] at hck
  simp only [Option.some.injEq, Prod.mk.injEq] at hck
  obtain ⟨hout2, hdirs⟩ := hck
  subst hdirs
  subst hout2
  exact ⟨rfl, rfl, fun _ => rfl, by decide⟩

/-- Witness for the C10 theorem at a concrete input: no Rust project
directories found at all. -/
theorem rust_target_fix_witness :
    (Output.mk "Size of Rust target directories" "0 MB" true).fix_available = true :=
  (rust_target_always_reports_fix "" (fun _ => "")
    (Output.mk "Size of Rust target directories" "0 MB" true) [] (by decide)).1

end ArchClean
